import Mathlib

/-!
# Verification of the monitorbench load-generator pipeline

Shallow embedding of `src/monitorbench.py`: the Metaflow flow `MonitorBench`
(a fixed pipeline of CPU / memory / I/O load steps) and its load primitives
(`spin_cpu`, `spin_cpu_percentage`, `_make_file`, the memory allocation
patterns).  Durations are modelled as exact rationals (idealized wall-clock:
a busy-wait loop that polls the clock until `secs` have elapsed is modelled
as consuming exactly `secs`); resource actions (allocations, file
creation/deletion, mmap) are modelled as explicit event traces.
-/

namespace Monitorbench

/-! ## The pipeline graph (from the `self.next(...)` calls of each step) -/

/-- The steps of the `MonitorBench` flow, one constructor per `@step` method
in `src/monitorbench.py` (the terminal step `end` is `end_` since `end` is a
Lean keyword). -/
inductive Step where
  | start
  | cpu_1cores
  | cpu_2cores
  | cpu_1cores_halfload
  | cpu_2cores_halfload
  | cpu_8cores
  | cpu_8cores_underprovisioned
  | cpu_unspecified
  | cpu_fraction
  | cpu_staircase
  | cpu_join
  | start_mem
  | mem_flat_2gb
  | mem_flat_8gb
  | mem_staircase_8gb
  | mem_increasing_rss
  | mem_spike_2gb
  | mem_mmap_8gb_untouch
  | mem_mmap_8gb_touch_incrementally
  | mem_mmap_8gb_touch_all
  | mem_join
  | start_io
  | io_write_8gb
  | io_write_8gb_mixed_cpu
  | io_join
  | end_
  deriving DecidableEq, Fintype, Repr

open Step

/-- Successor steps, read off the `self.next(...)` call ending each step
method of `MonitorBench`. -/
def successors : Step → List Step
  | .start => [cpu_1cores, cpu_2cores, cpu_1cores_halfload, cpu_2cores_halfload,
      cpu_8cores, cpu_8cores_underprovisioned, cpu_unspecified, cpu_fraction,
      cpu_staircase]
  | .cpu_1cores => [cpu_join]
  | .cpu_2cores => [cpu_join]
  | .cpu_1cores_halfload => [cpu_join]
  | .cpu_2cores_halfload => [cpu_join]
  | .cpu_8cores => [cpu_join]
  | .cpu_8cores_underprovisioned => [cpu_join]
  | .cpu_unspecified => [cpu_join]
  | .cpu_fraction => [cpu_join]
  | .cpu_staircase => [cpu_join]
  | .cpu_join => [start_mem]
  | .start_mem => [mem_flat_2gb, mem_flat_8gb, mem_staircase_8gb,
      mem_increasing_rss, mem_spike_2gb, mem_mmap_8gb_untouch,
      mem_mmap_8gb_touch_incrementally, mem_mmap_8gb_touch_all]
  | .mem_flat_2gb => [mem_join]
  | .mem_flat_8gb => [mem_join]
  | .mem_staircase_8gb => [mem_join]
  | .mem_increasing_rss => [mem_join]
  | .mem_spike_2gb => [mem_join]
  | .mem_mmap_8gb_untouch => [mem_join]
  | .mem_mmap_8gb_touch_incrementally => [mem_join]
  | .mem_mmap_8gb_touch_all => [mem_join]
  | .mem_join => [start_io]
  | .start_io => [io_write_8gb, io_write_8gb_mixed_cpu]
  | .io_write_8gb => [io_join]
  | .io_write_8gb_mixed_cpu => [io_join]
  | .io_join => [end_]
  | .end_ => []

/-- The load variants of the CPU stage (the fan-out set of `start`). -/
def cpuVariants : List Step :=
  [cpu_1cores, cpu_2cores, cpu_1cores_halfload, cpu_2cores_halfload,
   cpu_8cores, cpu_8cores_underprovisioned, cpu_unspecified, cpu_fraction,
   cpu_staircase]

/-- The load variants of the memory stage (the fan-out set of `start_mem`). -/
def memVariants : List Step :=
  [mem_flat_2gb, mem_flat_8gb, mem_staircase_8gb, mem_increasing_rss,
   mem_spike_2gb, mem_mmap_8gb_untouch, mem_mmap_8gb_touch_incrementally,
   mem_mmap_8gb_touch_all]

/-- The load variants of the I/O stage (the fan-out set of `start_io`). -/
def ioVariants : List Step := [io_write_8gb, io_write_8gb_mixed_cpu]

/-! ## Runs of the pipeline

Modelled from the spec: the Metaflow orchestration runtime that schedules the
steps is not part of `src/`; per the spec's state machine ("a stage
transitions to its Joined state only after every Variant launched in that
stage has terminated", barrier-join semantics), a run is an interleaved event
sequence in which every step begins and finishes, each step finishes after it
begins, and a step begins only after each of its graph predecessors has
finished. -/

/-- An observable scheduling event of a run: step `s` starts executing, or
step `s` terminates. -/
inductive PEvent where
  | begins (s : Step)
  | finishes (s : Step)
  deriving DecidableEq, Repr

/-- Position in the run at which step `s` starts executing. -/
def bIdx (t : List PEvent) (s : Step) : ℕ := t.indexOf (PEvent.begins s)

/-- Position in the run at which step `s` terminates. -/
def fIdx (t : List PEvent) (s : Step) : ℕ := t.indexOf (PEvent.finishes s)

/-- Modelled from the spec: a valid run of the pipeline under the external
scheduler.  Every step begins and terminates, termination follows start, and
a step may start only after every one of its predecessors in the `successors`
graph has terminated (barrier-join semantics). -/
def ValidRun (t : List PEvent) : Prop :=
  (∀ s : Step, PEvent.begins s ∈ t) ∧
  (∀ s : Step, PEvent.finishes s ∈ t) ∧
  (∀ s : Step, bIdx t s < fIdx t s) ∧
  (∀ p s : Step, s ∈ successors p → fIdx t p < bIdx t s)

instance (t : List PEvent) : Decidable (ValidRun t) := by
  unfold ValidRun; infer_instance

/-- In a valid run, a step ends before any successor of a successor of one of
its successors starts (the fan-in / fan-out / fan-in chain across a join). -/
lemma finish_lt_begin_chain3 {t : List PEvent} (h : ValidRun t)
    {c j k m : Step} (h1 : j ∈ successors c) (h2 : k ∈ successors j)
    (h3 : m ∈ successors k) : fIdx t c < bIdx t m := by
  obtain ⟨-, -, hwf, hdep⟩ := h
  calc fIdx t c < bIdx t j := hdep c j h1
    _ < fIdx t j := hwf j
    _ < bIdx t k := hdep j k h2
    _ < fIdx t k := hwf k
    _ < bIdx t m := hdep k m h3

/-- In a valid run, a step ends before any successor of one of its successors
starts. -/
lemma finish_lt_begin_chain2 {t : List PEvent} (h : ValidRun t)
    {c j m : Step} (h1 : j ∈ successors c) (h2 : m ∈ successors j) :
    fIdx t c < bIdx t m := by
  obtain ⟨-, -, hwf, hdep⟩ := h
  calc fIdx t c < bIdx t j := hdep c j h1
    _ < fIdx t j := hwf j
    _ < bIdx t m := hdep j m h2

/-- C1: the pipeline runs its stages strictly in sequence: in every valid
run, every CPU variant terminates before any memory variant starts, every
memory variant terminates before any I/O variant starts, and every I/O
variant terminates before the terminal `end` step starts; the joins feed
directly into the next stage (`cpu_join → start_mem`, `mem_join → start_io`,
`io_join → end`) and the terminal step has no successor. -/
theorem pipeline_stages_strictly_sequential (t : List PEvent) (h : ValidRun t) :
    (∀ c ∈ cpuVariants, ∀ m ∈ memVariants, fIdx t c < bIdx t m) ∧
    (∀ m ∈ memVariants, ∀ io_ ∈ ioVariants, fIdx t m < bIdx t io_) ∧
    (∀ io_ ∈ ioVariants, fIdx t io_ < bIdx t Step.end_) ∧
    successors Step.cpu_join = [Step.start_mem] ∧
    successors Step.mem_join = [Step.start_io] ∧
    successors Step.io_join = [Step.end_] ∧
    successors Step.end_ = [] := by
  have hcpu : ∀ c ∈ cpuVariants, Step.cpu_join ∈ successors c := by decide
  have hmem : ∀ m ∈ memVariants, m ∈ successors Step.start_mem := by decide
  have hmem' : ∀ m ∈ memVariants, Step.mem_join ∈ successors m := by decide
  have hio : ∀ io_ ∈ ioVariants, io_ ∈ successors Step.start_io := by decide
  have hio' : ∀ io_ ∈ ioVariants, Step.io_join ∈ successors io_ := by decide
  refine ⟨?_, ?_, ?_, rfl, rfl, rfl, rfl⟩
  · intro c hc m hm
    exact finish_lt_begin_chain3 h (hcpu c hc) (by decide) (hmem m hm)
  · intro m hm io_ hio_
    exact finish_lt_begin_chain3 h (hmem' m hm) (by decide) (hio io_ hio_)
  · intro io_ hio_
    exact finish_lt_begin_chain2 h (hio' io_ hio_) (by decide)

/-- A concrete fully sequential run of the pipeline (every step runs to
completion before the next one starts, in topological order). -/
def seqRun : List PEvent :=
  ([start, cpu_1cores, cpu_2cores, cpu_1cores_halfload, cpu_2cores_halfload,
    cpu_8cores, cpu_8cores_underprovisioned, cpu_unspecified, cpu_fraction,
    cpu_staircase, cpu_join, start_mem, mem_flat_2gb, mem_flat_8gb,
    mem_staircase_8gb, mem_increasing_rss, mem_spike_2gb, mem_mmap_8gb_untouch,
    mem_mmap_8gb_touch_incrementally, mem_mmap_8gb_touch_all, mem_join,
    start_io, io_write_8gb, io_write_8gb_mixed_cpu, io_join, end_]).flatMap
    (fun s => [PEvent.begins s, PEvent.finishes s])

/-- Witness for C1: the sequential run is a valid run, and the stage-ordering
conclusions hold for it. -/
theorem pipeline_stages_strictly_sequential_witness :
    (∀ c ∈ cpuVariants, ∀ m ∈ memVariants, fIdx seqRun c < bIdx seqRun m) ∧
    (∀ m ∈ memVariants, ∀ io_ ∈ ioVariants, fIdx seqRun m < bIdx seqRun io_) ∧
    (∀ io_ ∈ ioVariants, fIdx seqRun io_ < bIdx seqRun Step.end_) ∧
    successors Step.cpu_join = [Step.start_mem] ∧
    successors Step.mem_join = [Step.start_io] ∧
    successors Step.io_join = [Step.end_] ∧
    successors Step.end_ = [] :=
  pipeline_stages_strictly_sequential seqRun (by decide)

/-! ## CPU load primitives

`spin_cpu` and `spin_cpu_percentage` are wall-clock-polling busy loops; we
model time exactly: a loop of the form `while time.time() - start < d: ...`
is modelled as busy-working for exactly `d` (or `0` when `d ≤ 0`, since the
condition fails immediately), and `time.sleep(d)` as sleeping exactly `d`. -/

/-- One tick of `spin_cpu_percentage`: (busy seconds, sleep seconds). -/
def cpuTick (percentage : ℚ) : ℚ × ℚ := (percentage / 100, 1 - percentage / 100)

/-- From `spin_cpu_percentage(seconds, percentage)`: for each
`i in range(0, seconds)`, busy-loop (`a = math.sqrt(64*64*64*64*64)`) while
elapsed `< percentage / 100.0`, then `time.sleep(1 - percentage / 100.0)`.
Each iteration is modelled as its (busy, sleep) pair of durations. -/
def spin_cpu_percentage (seconds : ℕ) (percentage : ℚ) : List (ℚ × ℚ) :=
  (List.range seconds).map fun _ => cpuTick percentage

lemma sum_map_const_range (n : ℕ) (c : ℚ) :
    ((List.range n).map (fun _ => c)).sum = n * c := by
  induction n with
  | zero => simp
  | succ k ih =>
    rw [List.range_succ, List.map_append, List.sum_append, ih]
    push_cast
    simp
    ring

/-- C2: each of the `T` one-second ticks of `spin_cpu_percentage T P` busy-works
for `P/100` seconds and sleeps `1 - P/100` seconds (both nonnegative for
`0 ≤ P ≤ 100`), so each tick lasts exactly one second, total wall-clock is
`T` seconds and total busy time is `T * P / 100`. -/
theorem spin_cpu_percentage_ticks (T : ℕ) (P : ℚ) (h0 : 0 ≤ P) (h1 : P ≤ 100) :
    (spin_cpu_percentage T P).length = T ∧
    (∀ tk ∈ spin_cpu_percentage T P,
      tk.1 = P / 100 ∧ tk.2 = 1 - P / 100 ∧ 0 ≤ tk.1 ∧ 0 ≤ tk.2 ∧ tk.1 + tk.2 = 1) ∧
    ((spin_cpu_percentage T P).map (fun tk => tk.1 + tk.2)).sum = T ∧
    ((spin_cpu_percentage T P).map Prod.fst).sum = T * (P / 100) := by
  refine ⟨by simp [spin_cpu_percentage], ?_, ?_, ?_⟩
  · intro tk htk
    simp only [spin_cpu_percentage, List.mem_map, List.mem_range] at htk
    obtain ⟨i, -, rfl⟩ := htk
    refine ⟨rfl, rfl, ?_, ?_, by simp [cpuTick]⟩
    · have : (0 : ℚ) ≤ P / 100 := by positivity
      simpa [cpuTick] using this
    · have : P / 100 ≤ 1 := by linarith
      simpa [cpuTick] using this
  · unfold spin_cpu_percentage
    rw [List.map_map]
    have hc : ((fun tk : ℚ × ℚ => tk.1 + tk.2) ∘ fun _ : ℕ => cpuTick P)
        = fun _ => (1 : ℚ) := by
      funext i
      simp [cpuTick]
    rw [hc, sum_map_const_range, mul_one]
  · unfold spin_cpu_percentage
    rw [List.map_map]
    have hc : (Prod.fst ∘ fun _ : ℕ => cpuTick P) = fun _ => P / 100 := by
      funext i
      rfl
    rw [hc, sum_map_const_range]

/-- Witness for C2 at `T = 4`, `P = 30`. -/
theorem spin_cpu_percentage_ticks_witness :
    (0 : ℚ) ≤ 30 ∧ (30 : ℚ) ≤ 100 ∧
    ((spin_cpu_percentage 4 30).length = 4 ∧
    (∀ tk ∈ spin_cpu_percentage 4 30,
      tk.1 = 30 / 100 ∧ tk.2 = 1 - 30 / 100 ∧ 0 ≤ tk.1 ∧ 0 ≤ tk.2 ∧ tk.1 + tk.2 = 1) ∧
    ((spin_cpu_percentage 4 30).map (fun tk => tk.1 + tk.2)).sum = 4 ∧
    ((spin_cpu_percentage 4 30).map Prod.fst).sum = 4 * (30 / 100)) :=
  ⟨by norm_num, by norm_num,
    by simpa using spin_cpu_percentage_ticks 4 30 (by norm_num) (by norm_num)⟩

/-- The sleep `spin_cpu` inserts after each work unit when `half_load` is
set: `time.sleep(0.0000002)` in the source, i.e. 2/10^7 seconds. -/
def spin_cpu_unit_sleep : ℚ := 2 / 10000000

/-- Observable timing behaviour of one `spin_cpu` call: total wall-clock
duration, and the sleep inserted after each work unit. -/
structure SpinBehavior where
  wall : ℚ
  unitSleep : ℚ
  deriving DecidableEq, Repr

/-- From `spin_cpu(secs, half_load)`: `while time.time() - nu < secs: x += 1;
if half_load: time.sleep(0.0000002)`.  The loop polls wall-clock time, so it
runs for `secs` wall-clock seconds (0 if `secs ≤ 0`), sleeps included; when
`half_load` it sleeps `spin_cpu_unit_sleep` after each increment. -/
def spin_cpu (secs : ℚ) (half_load : Bool) : SpinBehavior :=
  { wall := max secs 0
    unitSleep := if half_load then spin_cpu_unit_sleep else 0 }

/-- Counterexample for C3: the per-unit sleep of `spin_cpu` under the half
duty cycle is 0.2 microseconds — 1000 times smaller than the claimed
"approximately 200 microseconds" (it is below even half of 200 µs). -/
theorem spin_cpu_halfload_sleep_not_200us :
    (spin_cpu 600 true).unitSleep * 1000 = 200 / 1000000 ∧
    (spin_cpu 600 true).unitSleep < 200 / 1000000 / 2 := by
  constructor <;> norm_num [spin_cpu, spin_cpu_unit_sleep]

/-- C3 (amended): `spin_cpu(D, half)` busy-loops for `D` wall-clock seconds;
under the half duty cycle it inserts a sleep of 0.2 microseconds
(`time.sleep(0.0000002)`) after each unit of work, and no sleep otherwise;
total wall-clock elapsed is `D` either way. -/
theorem spin_cpu_wall_and_unit_sleep (D : ℚ) (h : 0 ≤ D) (b : Bool) :
    (spin_cpu D b).wall = D ∧
    (spin_cpu D true).unitSleep = 2 / 10000000 ∧
    (spin_cpu D false).unitSleep = 0 := by
  refine ⟨?_, rfl, rfl⟩
  simp [spin_cpu, max_eq_left h]

/-- Witness for C3's amended theorem at `D = 5`, half duty cycle. -/
theorem spin_cpu_wall_and_unit_sleep_witness :
    (0 : ℚ) ≤ 5 ∧
    ((spin_cpu 5 true).wall = 5 ∧
    (spin_cpu 5 true).unitSleep = 2 / 10000000 ∧
    (spin_cpu 5 false).unitSleep = 0) :=
  ⟨by norm_num, spin_cpu_wall_and_unit_sleep 5 (by norm_num) true⟩

/-! ## Memory-pattern steps as event traces

Each memory step's body is a straight-line sequence of allocations, prints
and sleeps; we model it as the list of its observable events. -/

/-- Observable events of the memory steps: `alloc` is a managed allocation
(a Python `bytes` object appended to a held list), `mallocRaw` / `fillRaw` /
`freeRaw` are the libc calls obtained through `load_libc` (`malloc`,
`memset`, `free`), `printMem` is `_print_mem()`, `msleep d` is
`time.sleep(d)`, and `releaseScope` is the release of all managed
allocations when the step's locals go out of scope. -/
inductive MEvent where
  | alloc (bytes : ℕ)
  | mallocRaw (bytes : ℕ)
  | fillRaw (byte : ℕ) (bytes : ℕ)
  | freeRaw
  | printMem
  | msleep (d : ℚ)
  | releaseScope
  deriving DecidableEq, Repr

/-- The managed-allocation size of an event, if it is one. -/
def allocBytes : MEvent → Option ℕ
  | .alloc n => some n
  | _ => none

/-- The sleep duration of an event, if it is a sleep. -/
def sleepDur : MEvent → Option ℚ
  | .msleep d => some d
  | _ => none

/-- Whether an event is a raw (libc-level) memory operation. -/
def isRawOp : MEvent → Bool
  | .mallocRaw _ => true
  | .fillRaw _ _ => true
  | .freeRaw => true
  | _ => false

/-- The chunk size of `mem_staircase_8gb`: `b"a" * 512_000_000`. -/
def staircase_chunk : ℕ := 512000000

/-- From `MonitorBench.mem_staircase_8gb`: `for i in range(16):
t.append(b"a" * 512_000_000); _print_mem(); time.sleep(self.spin_secs / 17)`
followed by one more `time.sleep(self.spin_secs / 17)`; the list `t` holds
every chunk until the step ends, when all are released together. -/
def mem_staircase_8gb (secs : ℚ) : List MEvent :=
  ((List.range 16).flatMap fun _ =>
    [MEvent.alloc staircase_chunk, MEvent.printMem, MEvent.msleep (secs / 17)])
  ++ [MEvent.msleep (secs / 17), MEvent.releaseScope]

/-- C4: the staircase memory variant allocates 16 equal chunks of
512,000,000 bytes sequentially; after `i` chunks the total allocated is
exactly `i * 512000000` bytes; the 17 pacing sleeps are all `secs/17`; no
chunk is freed before the single end-of-step release, which comes last. -/
theorem mem_staircase_allocation (secs : ℚ) (i : ℕ) (h : i ≤ 16) :
    ((mem_staircase_8gb secs).filterMap allocBytes).length = 16 ∧
    (∀ c ∈ (mem_staircase_8gb secs).filterMap allocBytes, c = 512000000) ∧
    (((mem_staircase_8gb secs).filterMap allocBytes).take i).sum = i * 512000000 ∧
    (mem_staircase_8gb secs).filterMap sleepDur = List.replicate 17 (secs / 17) ∧
    (mem_staircase_8gb secs).getLast? = some MEvent.releaseScope ∧
    (mem_staircase_8gb secs).count MEvent.releaseScope = 1 ∧
    MEvent.freeRaw ∉ mem_staircase_8gb secs := by
  have hallocs : (mem_staircase_8gb secs).filterMap allocBytes
      = List.replicate 16 staircase_chunk := rfl
  refine ⟨by rw [hallocs]; rfl, ?_, ?_, rfl, rfl, rfl, ?_⟩
  · intro c hc
    rw [hallocs] at hc
    exact List.eq_of_mem_replicate hc
  · rw [hallocs, List.take_replicate, min_eq_left h, List.sum_replicate,
      smul_eq_mul, staircase_chunk]
  · simp [mem_staircase_8gb]

/-- Witness for C4 at `secs = 600`, `i = 7`. -/
theorem mem_staircase_allocation_witness :
    (7 : ℕ) ≤ 16 ∧
    ((((mem_staircase_8gb 600).filterMap allocBytes).take 7).sum = 7 * 512000000 ∧
      ((mem_staircase_8gb 600).filterMap allocBytes).length = 16) :=
  ⟨by norm_num,
    ⟨(mem_staircase_allocation 600 7 (by norm_num)).2.2.1,
      (mem_staircase_allocation 600 7 (by norm_num)).1⟩⟩

/-- From `MonitorBench.mem_spike_2gb`: `time.sleep(self.spin_secs / 2)`;
`c = load_libc()`; `p = c.malloc(2_000_000_000)`;
`c.memset(p, 66, 2_000_000_000)`; `_print_mem()`; `time.sleep(10)`;
`c.free(p)`; `_print_mem()`; `time.sleep(self.spin_secs / 2)`. -/
def mem_spike_2gb (secs : ℚ) : List MEvent :=
  [MEvent.msleep (secs / 2),
   MEvent.mallocRaw 2000000000,
   MEvent.fillRaw 66 2000000000,
   MEvent.printMem,
   MEvent.msleep 10,
   MEvent.freeRaw,
   MEvent.printMem,
   MEvent.msleep (secs / 2)]

/-- Counterexample for C5: the spike variant does not zero-fill the block —
`memset` is called with fill byte 66, and no zero-fill event occurs. -/
theorem mem_spike_fill_byte_is_66_not_0 :
    MEvent.fillRaw 66 2000000000 ∈ mem_spike_2gb 600 ∧
    MEvent.fillRaw 0 2000000000 ∉ mem_spike_2gb 600 := by
  constructor
  · simp [mem_spike_2gb]
  · simp [mem_spike_2gb]

/-- C5 (amended): the spike variant performs exactly: sleep `secs/2`, raw
(libc) allocation of 2,000,000,000 bytes bypassing the managed allocator,
fill of the block with constant byte 66, a 10-second hold, raw free, sleep
`secs/2`; its raw operations are exactly malloc–fill–free in that order, its
sleeps are exactly `[secs/2, 10, secs/2]`, and no managed 2GB allocation
occurs. -/
theorem mem_spike_sequence (secs : ℚ) :
    (mem_spike_2gb secs).filter isRawOp =
      [MEvent.mallocRaw 2000000000, MEvent.fillRaw 66 2000000000,
        MEvent.freeRaw] ∧
    (mem_spike_2gb secs).filterMap sleepDur = [secs / 2, 10, secs / 2] ∧
    (mem_spike_2gb secs).head? = some (MEvent.msleep (secs / 2)) ∧
    (mem_spike_2gb secs).getLast? = some (MEvent.msleep (secs / 2)) ∧
    MEvent.alloc 2000000000 ∉ mem_spike_2gb secs := by
  refine ⟨rfl, rfl, rfl, rfl, ?_⟩
  simp [mem_spike_2gb]

/-! ## File and mmap steps: scoped resources and failure injection

The mmap and I/O steps manage resources through Python `with` blocks
(`NamedTemporaryFile`, `open`).  We model each step body as a small
straight-line program whose `scoped` nodes are `with` blocks, and run it
under failure injection: execution may raise at any action, and a `with`
block's release action runs on both the normal and the failing path (but not
when its own acquire action raised).  Sleep durations do not matter for
these claims and are elided from the action alphabet; they are modelled by
`plannedDuration` instead. -/

/-- Operations performed by the file/mmap step bodies. -/
inductive Action where
  | createTemp
  | deleteTemp
  | openF
  | closeF
  | writeChunk (bytes : ℕ)
  | flushF
  | mmapCreate
  | munmapCall
  | touch (bytes : ℕ)
  | allocBuf (bytes : ℕ)
  | sleepA
  | printA
  | strIndex
  | spinA
  deriving DecidableEq, Repr

/-- Straight-line programs with `with` blocks: `block acq rel body` runs
`acq`, then `body`, and always runs `rel` when leaving the block — also when
`body` raised — but not when `acq` itself raised. -/
inductive Prog where
  | skip
  | act (a : Action)
  | seq (p q : Prog)
  | block (acq rel : Action) (body : Prog)
  deriving DecidableEq, Repr

/-- Run a program under failure injection: `fuel` is the number of ordinary
actions that execute before one raises (an allocation or I/O failure at an
arbitrary point; `fuel ≥ size` is a normal run).  Returns the trace of
executed actions, the remaining fuel, and whether the run completed without
raising.  Release actions consume no fuel and never fail. -/
def Prog.run : Prog → ℕ → List Action × ℕ × Bool
  | .skip, n => ([], n, true)
  | .act _, 0 => ([], 0, false)
  | .act a, n + 1 => ([a], n, true)
  | .seq p q, n =>
    let r1 := p.run n
    if r1.2.2 then
      let r2 := q.run r1.2.1
      (r1.1 ++ r2.1, r2.2.1, r2.2.2)
    else r1
  | .block _ _ _, 0 => ([], 0, false)
  | .block acq rel body, n + 1 =>
    let rb := body.run n
    (acq :: (rb.1 ++ [rel]), rb.2.1, rb.2.2)

/-- Number of fuel-consuming actions of a program. -/
def Prog.size : Prog → ℕ
  | .skip => 0
  | .act _ => 1
  | .seq p q => p.size + q.size
  | .block _ _ body => body.size + 1

/-- The action trace of a normal (failure-free) run. -/
def Prog.trace : Prog → List Action
  | .skip => []
  | .act a => [a]
  | .seq p q => p.trace ++ q.trace
  | .block acq rel body => acq :: (body.trace ++ [rel])

/-- Whether action `x` occurs anywhere in the program. -/
def Prog.hasAct (x : Action) : Prog → Bool
  | .skip => false
  | .act a => a == x
  | .seq p q => p.hasAct x || q.hasAct x
  | .block acq rel body => acq == x || rel == x || body.hasAct x

/-- `n` consecutive repetitions of a program (a `for _ in range(n)` loop). -/
def iterate : ℕ → Prog → Prog
  | 0, _ => .skip
  | n + 1, p => .seq p (iterate n p)

/-- `acq`/`rel` pairing discipline: `a` and `r` occur only as the
acquire/release pair of a `scoped` block (each block either uses exactly the
pair `(a, r)` or avoids both). -/
def pairedOk (a r : Action) : Prog → Bool
  | .skip => true
  | .act x => decide (x ≠ a) && decide (x ≠ r)
  | .seq p q => pairedOk a r p && pairedOk a r q
  | .block acq rel body =>
    (decide (acq = a ∧ rel = r)
      || decide (acq ≠ a ∧ acq ≠ r ∧ rel ≠ a ∧ rel ≠ r))
    && pairedOk a r body

lemma Prog.run_complete (p : Prog) : ∀ n : ℕ, p.size ≤ n →
    p.run n = (p.trace, n - p.size, true) := by
  induction p with
  | skip => intro n h; simp [Prog.run, Prog.trace, Prog.size]
  | act a =>
    intro n h
    match n, h with
    | n + 1, _ => simp [Prog.run, Prog.trace, Prog.size]
  | seq p q ihp ihq =>
    intro n h
    rw [Prog.size] at h
    have hp : p.size ≤ n := by omega
    have hq : q.size ≤ n - p.size := by omega
    simp only [Prog.run, ihp n hp, ihq (n - p.size) hq]
    simp only [Prog.trace, Prog.size, Prod.mk.injEq]
    simp
    omega
  | block acq rel body ih =>
    intro n h
    rw [Prog.size] at h
    match n, h with
    | n + 1, h =>
      have hb : body.size ≤ n := by omega
      simp only [Prog.run, ih n hb]
      simp only [Prog.trace, Prog.size, Prod.mk.injEq]
      simp

lemma Prog.run_mem_hasAct (x : Action) : ∀ (p : Prog) (n : ℕ),
    x ∈ (p.run n).1 → p.hasAct x = true := by
  intro p
  induction p with
  | skip => intro n h; simp [Prog.run] at h
  | act a =>
    intro n h
    match n with
    | 0 => simp [Prog.run] at h
    | n + 1 =>
      simp only [Prog.run, List.mem_singleton] at h
      simp [Prog.hasAct, h]
  | seq p q ihp ihq =>
    intro n h
    simp only [Prog.run] at h
    simp only [Prog.hasAct, Bool.or_eq_true]
    by_cases hok : (p.run n).2.2
    · rw [if_pos hok] at h
      rcases List.mem_append.mp h with h1 | h2
      · exact Or.inl (ihp n h1)
      · exact Or.inr (ihq (p.run n).2.1 h2)
    · rw [if_neg hok] at h
      exact Or.inl (ihp n h)
  | block acq rel body ih =>
    intro n h
    match n with
    | 0 => simp [Prog.run] at h
    | n + 1 =>
      simp only [Prog.run] at h
      simp only [Prog.hasAct, Bool.or_eq_true]
      rcases List.mem_cons.mp h with rfl | h'
      · exact Or.inl (Or.inl (by simp))
      · rcases List.mem_append.mp h' with h1 | h2
        · exact Or.inr (ih n h1)
        · simp only [List.mem_singleton] at h2
          subst h2
          exact Or.inl (Or.inr (by simp))

lemma run_count_eq (a r : Action) : ∀ (p : Prog), pairedOk a r p = true →
    ∀ n : ℕ, ((p.run n).1.count a) = ((p.run n).1.count r) := by
  intro p
  induction p with
  | skip => intro _ n; simp [Prog.run]
  | act x =>
    intro hp n
    simp only [pairedOk, Bool.and_eq_true, decide_eq_true_eq] at hp
    match n with
    | 0 => simp [Prog.run]
    | n + 1 =>
      simp [Prog.run, List.count_singleton, hp.1, hp.2]
  | seq p q ihp ihq =>
    intro hp n
    simp only [pairedOk, Bool.and_eq_true] at hp
    simp only [Prog.run]
    by_cases hok : (p.run n).2.2
    · rw [if_pos hok]
      simp only [List.count_append]
      have h1 := ihp hp.1 n
      have h2 := ihq hp.2 (p.run n).2.1
      omega
    · rw [if_neg hok]
      exact ihp hp.1 n
  | block acq rel body ih =>
    intro hp n
    simp only [pairedOk, Bool.and_eq_true, Bool.or_eq_true,
      decide_eq_true_eq] at hp
    obtain ⟨hpair, hbody⟩ := hp
    match n with
    | 0 => simp [Prog.run]
    | n + 1 =>
      simp only [Prog.run]
      have hcount := ih hbody n
      rcases hpair with ⟨rfl, rfl⟩ | ⟨h1, h2, h3, h4⟩
      · by_cases har : acq = rel
        · subst har; rfl
        · simp [List.count_cons, List.count_append, List.count_singleton,
            har, Ne.symm har, hcount]
      · simp only [List.count_cons, List.count_append, List.count_singleton]
        have e1 : (acq == a) = false := by simp [h1]
        have e2 : (acq == r) = false := by simp [h2]
        have e3 : (rel == a) = false := by simp [h3]
        have e4 : (rel == r) = false := by simp [h4]
        simp [e1, e2, e3, e4, hcount]

lemma pairedOk_iterate (a r : Action) (p : Prog)
    (h : pairedOk a r p = true) : ∀ n : ℕ, pairedOk a r (iterate n p) = true := by
  intro n
  induction n with
  | zero => rfl
  | succ k ih => simp [iterate, pairedOk, h, ih]

lemma iterate_act_trace (n : ℕ) (x : Action) :
    (iterate n (Prog.act x)).trace = List.replicate n x := by
  induction n with
  | zero => rfl
  | succ k ih => simp [iterate, Prog.trace, ih, List.replicate_succ]

/-- From `_make_file(name, size_in_mb)`: `x = b"1" * 1_000_000;
with open(name, "wb") as f: for i in range(size_in_mb): f.write(x)`.
There is no flush statement in the loop; the data is flushed when the file
is closed at the end of the `with` block. -/
def make_file (size_in_mb : ℕ) : Prog :=
  .seq (.act (.allocBuf 1000000))
    (.block .openF .closeF (iterate size_in_mb (.act (.writeChunk 1000000))))

/-- The number of bytes written by an action, if it is a chunk write. -/
def chunkBytes : Action → Option ℕ
  | .writeChunk n => some n
  | _ => none

/-- From `MonitorBench.mem_mmap_8gb_untouch`: `with NamedTemporaryFile() as
tmp: _make_file(tmp.name, 8000); with open(tmp.name, "r+b") as f:
mm = mmap.mmap(...); _print_mem(); time.sleep(self.spin_secs / 2)`.
No statement closes or unmaps `mm`. -/
def mem_mmap_8gb_untouch_prog : Prog :=
  .block .createTemp .deleteTemp
    (.seq (make_file 8000)
      (.block .openF .closeF
        (.seq (.act .mmapCreate) (.seq (.act .printA) (.act .sleepA)))))

/-- From `MonitorBench.mem_mmap_8gb_touch_incrementally`: as above but after
mapping, `for i in range(8): b = str(mm[i * B : (i + 1) * B]); _print_mem();
time.sleep(1)`.  No statement closes or unmaps `mm`. -/
def mem_mmap_8gb_touch_incrementally_prog : Prog :=
  .block .createTemp .deleteTemp
    (.seq (make_file 8000)
      (.block .openF .closeF
        (.seq (.act .mmapCreate)
          (iterate 8 (.seq (.act (.touch 1000000000))
            (.seq (.act .printA) (.act .sleepA)))))))

/-- From `MonitorBench.mem_mmap_8gb_touch_all`: as above but `x = str(mm[:])`
touches everything at once, and `x[0]` is evaluated after the `with` blocks.
No statement closes or unmaps `mm`. -/
def mem_mmap_8gb_touch_all_prog : Prog :=
  .seq
    (.block .createTemp .deleteTemp
      (.seq (make_file 8000)
        (.block .openF .closeF
          (.seq (.act .mmapCreate)
            (.seq (.act (.touch 8000000000))
              (.seq (.act .printA) (.act .sleepA)))))))
    (.act .strIndex)

/-- From `MonitorBench.io_write_8gb`: `time.sleep(self.spin_secs / 2);
x = b"1" * 1_000_000_000; with NamedTemporaryFile() as tmp:
_make_file(tmp.name, 8 * 1000); time.sleep(self.spin_secs / 2)`. -/
def io_write_8gb_prog : Prog :=
  .seq (.act .sleepA)
    (.seq (.act (.allocBuf 1000000000))
      (.seq (.block .createTemp .deleteTemp (make_file 8000))
        (.act .sleepA)))

/-- From `MonitorBench.io_write_8gb_mixed_cpu`: `x = b"1" * 1_000_000_000;
for _ in range(10): with NamedTemporaryFile() as tmp:
_make_file(tmp.name, 8 * 1000); spin_cpu(self.spin_secs / 10)`. -/
def io_write_8gb_mixed_cpu_prog : Prog :=
  .seq (.act (.allocBuf 1000000000))
    (iterate 10 (.seq (.block .createTemp .deleteTemp (make_file 8000))
      (.act .spinA)))

lemma make_file_trace_eq (mb : ℕ) :
    (make_file mb).trace
      = Action.allocBuf 1000000 :: Action.openF ::
          (List.replicate mb (Action.writeChunk 1000000) ++ [Action.closeF]) := by
  simp [make_file, Prog.trace, iterate_act_trace]

lemma filterMap_chunk_replicate (n c : ℕ) :
    (List.replicate n (Action.writeChunk c)).filterMap chunkBytes
      = List.replicate n c := by
  induction n with
  | zero => rfl
  | succ k ih => simp [List.replicate_succ, List.filterMap_cons, chunkBytes, ih]

lemma sum_replicate_nat (n c : ℕ) : (List.replicate n c).sum = n * c := by
  simp [List.sum_replicate, smul_eq_mul]

lemma iterate_trace_mem {x : Action} {p : Prog} {n : ℕ}
    (h : x ∈ (iterate n p).trace) : x ∈ p.trace := by
  induction n with
  | zero => simp [iterate, Prog.trace] at h
  | succ k ih =>
    rcases List.mem_append.mp (by simpa [iterate, Prog.trace] using h) with h1 | h2
    · exact h1
    · exact ih h2

lemma pairedOk_td_make_file (mb : ℕ) :
    pairedOk Action.createTemp Action.deleteTemp (make_file mb) = true := by
  have h := pairedOk_iterate Action.createTemp Action.deleteTemp
    (Prog.act (Action.writeChunk 1000000)) (by decide) mb
  simp only [make_file, pairedOk, h]
  decide

lemma pairedOk_oc_make_file (mb : ℕ) :
    pairedOk Action.openF Action.closeF (make_file mb) = true := by
  have h := pairedOk_iterate Action.openF Action.closeF
    (Prog.act (Action.writeChunk 1000000)) (by decide) mb
  simp only [make_file, pairedOk, h]
  decide

lemma hasAct_iterate_false {x : Action} {p : Prog}
    (h : p.hasAct x = false) : ∀ n, (iterate n p).hasAct x = false := by
  intro n
  induction n with
  | zero => rfl
  | succ k ih => simp [iterate, Prog.hasAct, h, ih]

lemma hasAct_act_false {x a : Action} (h : a ≠ x) :
    (Prog.act a).hasAct x = false := by
  simp [Prog.hasAct, h]

lemma hasAct_seq_false {x : Action} {p q : Prog} (hp : p.hasAct x = false)
    (hq : q.hasAct x = false) : (Prog.seq p q).hasAct x = false := by
  simp [Prog.hasAct, hp, hq]

lemma hasAct_block_false {x acq rel : Action} {body : Prog} (h1 : acq ≠ x)
    (h2 : rel ≠ x) (hb : body.hasAct x = false) :
    (Prog.block acq rel body).hasAct x = false := by
  simp [Prog.hasAct, h1, h2, hb]

lemma pairedOk_act {a r x : Action} (h1 : x ≠ a) (h2 : x ≠ r) :
    pairedOk a r (.act x) = true := by
  simp [pairedOk, h1, h2]

lemma pairedOk_seq {a r : Action} {p q : Prog} (hp : pairedOk a r p = true)
    (hq : pairedOk a r q = true) : pairedOk a r (.seq p q) = true := by
  simp [pairedOk, hp, hq]

lemma pairedOk_block_same {a r : Action} {body : Prog}
    (hb : pairedOk a r body = true) : pairedOk a r (.block a r body) = true := by
  simp [pairedOk, hb]

lemma pairedOk_block_other {a r acq rel : Action} {body : Prog}
    (h1 : acq ≠ a) (h2 : acq ≠ r) (h3 : rel ≠ a) (h4 : rel ≠ r)
    (hb : pairedOk a r body = true) :
    pairedOk a r (.block acq rel body) = true := by
  simp [pairedOk, h1, h2, h3, h4, hb]

lemma make_file_no_munmap (mb : ℕ) :
    (make_file mb).hasAct Action.munmapCall = false :=
  hasAct_seq_false (hasAct_act_false (by decide))
    (hasAct_block_false (by decide) (by decide)
      (hasAct_iterate_false (hasAct_act_false (by decide)) mb))

lemma pairedOk_td_untouch :
    pairedOk Action.createTemp Action.deleteTemp mem_mmap_8gb_untouch_prog
      = true :=
  pairedOk_block_same (pairedOk_seq (pairedOk_td_make_file 8000)
    (pairedOk_block_other (by decide) (by decide) (by decide) (by decide)
      (pairedOk_seq (pairedOk_act (by decide) (by decide))
        (pairedOk_seq (pairedOk_act (by decide) (by decide))
          (pairedOk_act (by decide) (by decide))))))

lemma pairedOk_oc_untouch :
    pairedOk Action.openF Action.closeF mem_mmap_8gb_untouch_prog = true :=
  pairedOk_block_other (by decide) (by decide) (by decide) (by decide)
    (pairedOk_seq (pairedOk_oc_make_file 8000)
      (pairedOk_block_same
        (pairedOk_seq (pairedOk_act (by decide) (by decide))
          (pairedOk_seq (pairedOk_act (by decide) (by decide))
            (pairedOk_act (by decide) (by decide))))))

lemma pairedOk_td_touch_inc :
    pairedOk Action.createTemp Action.deleteTemp
      mem_mmap_8gb_touch_incrementally_prog = true :=
  pairedOk_block_same (pairedOk_seq (pairedOk_td_make_file 8000)
    (pairedOk_block_other (by decide) (by decide) (by decide) (by decide)
      (pairedOk_seq (pairedOk_act (by decide) (by decide))
        (pairedOk_iterate _ _ _
          (pairedOk_seq (pairedOk_act (by decide) (by decide))
            (pairedOk_seq (pairedOk_act (by decide) (by decide))
              (pairedOk_act (by decide) (by decide)))) 8))))

lemma pairedOk_oc_touch_inc :
    pairedOk Action.openF Action.closeF mem_mmap_8gb_touch_incrementally_prog
      = true :=
  pairedOk_block_other (by decide) (by decide) (by decide) (by decide)
    (pairedOk_seq (pairedOk_oc_make_file 8000)
      (pairedOk_block_same
        (pairedOk_seq (pairedOk_act (by decide) (by decide))
          (pairedOk_iterate _ _ _
            (pairedOk_seq (pairedOk_act (by decide) (by decide))
              (pairedOk_seq (pairedOk_act (by decide) (by decide))
                (pairedOk_act (by decide) (by decide)))) 8))))

lemma pairedOk_td_touch_all :
    pairedOk Action.createTemp Action.deleteTemp mem_mmap_8gb_touch_all_prog
      = true :=
  pairedOk_seq
    (pairedOk_block_same (pairedOk_seq (pairedOk_td_make_file 8000)
      (pairedOk_block_other (by decide) (by decide) (by decide) (by decide)
        (pairedOk_seq (pairedOk_act (by decide) (by decide))
          (pairedOk_seq (pairedOk_act (by decide) (by decide))
            (pairedOk_seq (pairedOk_act (by decide) (by decide))
              (pairedOk_act (by decide) (by decide))))))))
    (pairedOk_act (by decide) (by decide))

lemma pairedOk_oc_touch_all :
    pairedOk Action.openF Action.closeF mem_mmap_8gb_touch_all_prog = true :=
  pairedOk_seq
    (pairedOk_block_other (by decide) (by decide) (by decide) (by decide)
      (pairedOk_seq (pairedOk_oc_make_file 8000)
        (pairedOk_block_same
          (pairedOk_seq (pairedOk_act (by decide) (by decide))
            (pairedOk_seq (pairedOk_act (by decide) (by decide))
              (pairedOk_seq (pairedOk_act (by decide) (by decide))
                (pairedOk_act (by decide) (by decide))))))))
    (pairedOk_act (by decide) (by decide))

lemma untouch_no_munmap :
    mem_mmap_8gb_untouch_prog.hasAct Action.munmapCall = false :=
  hasAct_block_false (by decide) (by decide)
    (hasAct_seq_false (make_file_no_munmap 8000)
      (hasAct_block_false (by decide) (by decide)
        (hasAct_seq_false (hasAct_act_false (by decide))
          (hasAct_seq_false (hasAct_act_false (by decide))
            (hasAct_act_false (by decide))))))

lemma touch_inc_no_munmap :
    mem_mmap_8gb_touch_incrementally_prog.hasAct Action.munmapCall = false :=
  hasAct_block_false (by decide) (by decide)
    (hasAct_seq_false (make_file_no_munmap 8000)
      (hasAct_block_false (by decide) (by decide)
        (hasAct_seq_false (hasAct_act_false (by decide))
          (hasAct_iterate_false
            (hasAct_seq_false (hasAct_act_false (by decide))
              (hasAct_seq_false (hasAct_act_false (by decide))
                (hasAct_act_false (by decide)))) 8))))

lemma touch_all_no_munmap :
    mem_mmap_8gb_touch_all_prog.hasAct Action.munmapCall = false :=
  hasAct_seq_false
    (hasAct_block_false (by decide) (by decide)
      (hasAct_seq_false (make_file_no_munmap 8000)
        (hasAct_block_false (by decide) (by decide)
          (hasAct_seq_false (hasAct_act_false (by decide))
            (hasAct_seq_false (hasAct_act_false (by decide))
              (hasAct_seq_false (hasAct_act_false (by decide))
                (hasAct_act_false (by decide))))))))
    (hasAct_act_false (by decide))

lemma mem_trace_block_rel (acq rel : Action) (body : Prog) :
    rel ∈ (Prog.block acq rel body).trace := by
  simp [Prog.trace]

lemma mem_trace_seq_left {x : Action} {p : Prog} (q : Prog)
    (h : x ∈ p.trace) : x ∈ (Prog.seq p q).trace := by
  simp [Prog.trace, h]

lemma untouch_deletes :
    Action.deleteTemp ∈ mem_mmap_8gb_untouch_prog.trace :=
  mem_trace_block_rel _ _ _

lemma touch_inc_deletes :
    Action.deleteTemp ∈ mem_mmap_8gb_touch_incrementally_prog.trace :=
  mem_trace_block_rel _ _ _

lemma touch_all_deletes :
    Action.deleteTemp ∈ mem_mmap_8gb_touch_all_prog.trace :=
  mem_trace_seq_left _ (mem_trace_block_rel _ _ _)

/-- C6 (amended): in each of the three mmap steps, the temporary-file and
open-file resources are scoped: on every execution — normal or raising at
any point — temp-file deletions match creations and file closes match opens
(the `with` blocks release on every exit path), but the mmap region is never
explicitly unmapped: no unmap operation occurs on any path; its release is
left to the runtime's garbage collection. -/
theorem mmap_steps_scoped_cleanup (p : Prog)
    (hp : p ∈ [mem_mmap_8gb_untouch_prog, mem_mmap_8gb_touch_incrementally_prog,
      mem_mmap_8gb_touch_all_prog]) (fuel : ℕ) :
    ((p.run fuel).1.count Action.createTemp
        = (p.run fuel).1.count Action.deleteTemp) ∧
    ((p.run fuel).1.count Action.openF
        = (p.run fuel).1.count Action.closeF) ∧
    Action.munmapCall ∉ (p.run fuel).1 ∧
    Action.deleteTemp ∈ p.trace := by
  have hmun : ∀ q : Prog, q.hasAct Action.munmapCall = false →
      Action.munmapCall ∉ (q.run fuel).1 := by
    intro q hq hmem
    have hx := Prog.run_mem_hasAct _ q fuel hmem
    rw [hq] at hx
    exact absurd hx (by decide)
  fin_cases hp
  · exact ⟨run_count_eq _ _ _ pairedOk_td_untouch fuel,
      run_count_eq _ _ _ pairedOk_oc_untouch fuel,
      hmun _ untouch_no_munmap, untouch_deletes⟩
  · exact ⟨run_count_eq _ _ _ pairedOk_td_touch_inc fuel,
      run_count_eq _ _ _ pairedOk_oc_touch_inc fuel,
      hmun _ touch_inc_no_munmap, touch_inc_deletes⟩
  · exact ⟨run_count_eq _ _ _ pairedOk_td_touch_all fuel,
      run_count_eq _ _ _ pairedOk_oc_touch_all fuel,
      hmun _ touch_all_no_munmap, touch_all_deletes⟩

/-- Witness for C6's amended theorem: the untouch step, failure injected
after 3 actions. -/
theorem mmap_steps_scoped_cleanup_witness :
    mem_mmap_8gb_untouch_prog ∈ [mem_mmap_8gb_untouch_prog,
      mem_mmap_8gb_touch_incrementally_prog, mem_mmap_8gb_touch_all_prog] ∧
    (((mem_mmap_8gb_untouch_prog.run 3).1.count Action.createTemp
        = (mem_mmap_8gb_untouch_prog.run 3).1.count Action.deleteTemp) ∧
      ((mem_mmap_8gb_untouch_prog.run 3).1.count Action.openF
        = (mem_mmap_8gb_untouch_prog.run 3).1.count Action.closeF) ∧
      Action.munmapCall ∉ (mem_mmap_8gb_untouch_prog.run 3).1 ∧
      Action.deleteTemp ∈ mem_mmap_8gb_untouch_prog.trace) :=
  ⟨List.mem_cons_self _ _,
    mmap_steps_scoped_cleanup _ (List.mem_cons_self _ _) 3⟩

lemma trace_mem_hasAct {x : Action} : ∀ p : Prog, x ∈ p.trace →
    p.hasAct x = true := by
  intro p
  induction p with
  | skip => intro h; simp [Prog.trace] at h
  | act a =>
    intro h
    simp only [Prog.trace, List.mem_singleton] at h
    simp [Prog.hasAct, h]
  | seq p q ihp ihq =>
    intro h
    simp only [Prog.hasAct, Bool.or_eq_true]
    rcases List.mem_append.mp (by simpa [Prog.trace] using h) with h1 | h2
    · exact Or.inl (ihp h1)
    · exact Or.inr (ihq h2)
  | block acq rel body ih =>
    intro h
    simp only [Prog.hasAct, Bool.or_eq_true]
    rcases List.mem_cons.mp h with rfl | h'
    · exact Or.inl (Or.inl (by simp))
    · rcases List.mem_append.mp h' with h1 | h2
      · exact Or.inr (ih h1)
      · simp only [List.mem_singleton] at h2
        subst h2
        exact Or.inl (Or.inr (by simp))

lemma mem_trace_act (x : Action) : x ∈ (Prog.act x).trace := by
  simp [Prog.trace]

lemma mem_trace_seq_right {x : Action} (p : Prog) {q : Prog}
    (h : x ∈ q.trace) : x ∈ (Prog.seq p q).trace := by
  simp [Prog.trace, h]

lemma mem_trace_block_body {x acq rel : Action} {body : Prog}
    (h : x ∈ body.trace) : x ∈ (Prog.block acq rel body).trace := by
  simp [Prog.trace, h]

lemma mem_trace_iterate_head {x : Action} {p : Prog} (h : x ∈ p.trace)
    (n : ℕ) : x ∈ (iterate (n + 1) p).trace :=
  mem_trace_seq_left _ h

lemma size_iterate_act (n : ℕ) (x : Action) :
    (iterate n (Prog.act x)).size = n := by
  induction n with
  | zero => rfl
  | succ k ih =>
    simp [iterate, Prog.size, ih]
    omega

lemma size_make_file (mb : ℕ) : (make_file mb).size = mb + 2 := by
  simp only [make_file, Prog.size]
  rw [size_iterate_act]
  omega

lemma size_untouch_gen (mb : ℕ) :
    (Prog.block Action.createTemp Action.deleteTemp
      (Prog.seq (make_file mb)
        (Prog.block Action.openF Action.closeF
          (Prog.seq (Prog.act Action.mmapCreate)
            (Prog.seq (Prog.act Action.printA)
              (Prog.act Action.sleepA)))))).size = mb + 7 := by
  simp only [Prog.size, make_file]
  rw [size_iterate_act]
  omega

lemma size_untouch : mem_mmap_8gb_untouch_prog.size = 8007 :=
  size_untouch_gen 8000

/-- Counterexample for C6: on the normal, failure-free execution of the
untouch mmap step, a mapping is created but no unmap operation ever occurs
— the code never closes the mmap object, so the claimed guaranteed
unmapping on every exit path fails already on the normal path. -/
theorem mmap_untouch_mapping_never_unmapped :
    Action.mmapCreate ∈ (mem_mmap_8gb_untouch_prog.run 9000).1 ∧
    Action.munmapCall ∉ (mem_mmap_8gb_untouch_prog.run 9000).1 ∧
    (mem_mmap_8gb_untouch_prog.run 9000).2.2 = true := by
  have hs : mem_mmap_8gb_untouch_prog.size ≤ 9000 := by
    rw [size_untouch]
    norm_num
  rw [Prog.run_complete mem_mmap_8gb_untouch_prog 9000 hs]
  refine ⟨?_, ?_, rfl⟩
  · exact mem_trace_block_body (mem_trace_seq_right _ (mem_trace_block_body
      (mem_trace_seq_left _ (mem_trace_act _))))
  · intro h
    have hx := trace_mem_hasAct _ h
    rw [untouch_no_munmap] at hx
    exact absurd hx (by decide)

lemma io_write_trace_gen (mb : ℕ) :
    (Prog.seq (Prog.act Action.sleepA)
      (Prog.seq (Prog.act (Action.allocBuf 1000000000))
        (Prog.seq (Prog.block Action.createTemp Action.deleteTemp
            (make_file mb))
          (Prog.act Action.sleepA)))).trace
      = [Action.sleepA, Action.allocBuf 1000000000, Action.createTemp,
          Action.allocBuf 1000000, Action.openF]
        ++ List.replicate mb (Action.writeChunk 1000000)
        ++ [Action.closeF, Action.deleteTemp, Action.sleepA] := by
  simp [Prog.trace, make_file_trace_eq, iterate_act_trace]

lemma filterMap_chunk_io_trace (mb : ℕ) :
    (([Action.sleepA, Action.allocBuf 1000000000, Action.createTemp,
        Action.allocBuf 1000000, Action.openF]
      ++ List.replicate mb (Action.writeChunk 1000000)
      ++ [Action.closeF, Action.deleteTemp, Action.sleepA]).filterMap
        chunkBytes).sum = mb * 1000000 := by
  simp [List.filterMap_append, chunkBytes, filterMap_chunk_replicate,
    sum_replicate_nat]

/-- C8: the 8GB file-write I/O variant writes exactly
8000 × 1,000,000 = 8,000,000,000 bytes to the temporary file, and the file
is deleted when the scoped block ends — after all writes and the close, and
before the final sleep. -/
theorem io_write_8gb_size_and_delete :
    io_write_8gb_prog.trace
      = [Action.sleepA, Action.allocBuf 1000000000, Action.createTemp,
          Action.allocBuf 1000000, Action.openF]
        ++ List.replicate 8000 (Action.writeChunk 1000000)
        ++ [Action.closeF, Action.deleteTemp, Action.sleepA] ∧
    (io_write_8gb_prog.trace.filterMap chunkBytes).sum = 8000000000 ∧
    Action.deleteTemp ∈ io_write_8gb_prog.trace := by
  have htr : io_write_8gb_prog.trace
      = [Action.sleepA, Action.allocBuf 1000000000, Action.createTemp,
          Action.allocBuf 1000000, Action.openF]
        ++ List.replicate 8000 (Action.writeChunk 1000000)
        ++ [Action.closeF, Action.deleteTemp, Action.sleepA] :=
    io_write_trace_gen 8000
  refine ⟨htr, ?_, ?_⟩
  · rw [htr, filterMap_chunk_io_trace 8000]
  · rw [htr]
    exact List.mem_append.mpr (Or.inr (by simp))

lemma make_file_no_flush_hasAct (mb : ℕ) :
    (make_file mb).hasAct Action.flushF = false :=
  hasAct_seq_false (hasAct_act_false (by decide))
    (hasAct_block_false (by decide) (by decide)
      (hasAct_iterate_false (hasAct_act_false (by decide)) mb))

lemma mixed_cpu_no_flush :
    io_write_8gb_mixed_cpu_prog.hasAct Action.flushF = false :=
  hasAct_seq_false (hasAct_act_false (by decide))
    (hasAct_iterate_false
      (hasAct_seq_false
        (hasAct_block_false (by decide) (by decide)
          (make_file_no_flush_hasAct 8000))
        (hasAct_act_false (by decide))) 10)

/-- Counterexample for C9: the chunked file-write primitive `_make_file`,
as invoked by the I/O patterns (8000 chunks), performs writes but no
explicit flush at all — there is no flush operation anywhere in its trace. -/
theorem make_file_8000_writes_without_flush :
    Action.writeChunk 1000000 ∈ (make_file 8000).trace ∧
    Action.flushF ∉ (make_file 8000).trace := by
  constructor
  · exact mem_trace_seq_right _ (mem_trace_block_body
      (mem_trace_iterate_head (mem_trace_act _) 7999))
  · intro h
    have hx := trace_mem_hasAct _ h
    rw [make_file_no_flush_hasAct 8000] at hx
    exact absurd hx (by decide)

/-- C9 (amended): the chunked file-write primitive writes its total size in
fixed 1,000,000-byte chunks (`size_in_mb` of them, totalling
`size_in_mb * 1000000` bytes) but performs no explicit per-chunk flush —
no flush occurs in `_make_file` or in the mixed I/O+CPU variant that calls
it; buffered data reaches the file when it is closed at the end of the
`with` block. -/
theorem make_file_fixed_chunks_no_flush (mb : ℕ) :
    (make_file mb).trace
      = Action.allocBuf 1000000 :: Action.openF ::
          (List.replicate mb (Action.writeChunk 1000000) ++ [Action.closeF]) ∧
    ((make_file mb).trace.filterMap chunkBytes).sum = mb * 1000000 ∧
    Action.flushF ∉ (make_file mb).trace ∧
    Action.flushF ∉ io_write_8gb_mixed_cpu_prog.trace := by
  refine ⟨make_file_trace_eq mb, ?_, ?_, ?_⟩
  · rw [make_file_trace_eq]
    simp [chunkBytes, List.filterMap_append, filterMap_chunk_replicate,
      sum_replicate_nat]
  · intro h
    have hx := trace_mem_hasAct _ h
    rw [make_file_no_flush_hasAct mb] at hx
    exact absurd hx (by decide)
  · intro h
    have hx := trace_mem_hasAct _ h
    rw [mixed_cpu_no_flush] at hx
    exact absurd hx (by decide)

/-! ## The duration parameter

`spin_secs = Parameter("step_time", ..., default=600)`.  For each load
variant, `plannedDuration v secs` is the total of the explicitly programmed
durations in its body — `spin_cpu` spin times, `spin_cpu_percentage` tick
counts and `time.sleep` arguments — as a function of the parameter
(`parallel_map` branches run concurrently, so a fan-out of equal spins
contributes its common duration once).  CPU-bound loops with no explicit
duration (the fill loop of `mem_increasing_rss`, `_make_file` writes)
contribute nothing: their length is not programmed. -/

/-- Default of the `step_time` parameter (`default=600`). -/
def spin_secs_default : ℕ := 600

/-- Programmed duration of each step body, from the source: spin and sleep
arguments summed; joins and fan-out steps run no load.  `cpu_staircase` runs
`spin_cpu_percentage(int(spin_secs/10), ·)` ten times;
`mem_staircase_8gb` sleeps `spin_secs/17` seventeen times;
`mem_increasing_rss` only sleeps a fixed 10 s; the incremental mmap touch
sleeps 1 s for each of its 8 gigabyte slices. -/
def plannedDuration (v : Step) (secs : ℕ) : ℚ :=
  match v with
  | .start | .cpu_join | .start_mem | .mem_join | .start_io | .io_join
  | .end_ => 0
  | .cpu_1cores => secs
  | .cpu_2cores => secs
  | .cpu_1cores_halfload => secs
  | .cpu_2cores_halfload => secs
  | .cpu_8cores => secs
  | .cpu_8cores_underprovisioned => secs
  | .cpu_unspecified => secs
  | .cpu_fraction => secs
  | .cpu_staircase => 10 * ((secs / 10 : ℕ) : ℚ)
  | .mem_flat_2gb => secs
  | .mem_flat_8gb => secs
  | .mem_staircase_8gb => 17 * ((secs : ℚ) / 17)
  | .mem_increasing_rss => 10
  | .mem_spike_2gb => (secs : ℚ) / 2 + 10 + (secs : ℚ) / 2
  | .mem_mmap_8gb_untouch => (secs : ℚ) / 2
  | .mem_mmap_8gb_touch_incrementally => 8
  | .mem_mmap_8gb_touch_all => (secs : ℚ) / 2
  | .io_write_8gb => (secs : ℚ) / 2 + (secs : ℚ) / 2
  | .io_write_8gb_mixed_cpu => 10 * ((secs : ℚ) / 10)

/-- Counterexample for C7: the duration parameter does not control the
length of every load variant — `mem_increasing_rss` and
`mem_mmap_8gb_touch_incrementally` have the same programmed duration at
`step_time = 600` and `step_time = 1200`, while a genuinely controlled
variant such as `cpu_1cores` changes. -/
theorem duration_param_ignored_by_two_variants :
    spin_secs_default = 600 ∧
    plannedDuration Step.mem_increasing_rss 600
      = plannedDuration Step.mem_increasing_rss 1200 ∧
    plannedDuration Step.mem_mmap_8gb_touch_incrementally 600
      = plannedDuration Step.mem_mmap_8gb_touch_incrementally 1200 ∧
    plannedDuration Step.cpu_1cores 600 ≠ plannedDuration Step.cpu_1cores 1200 := by
  refine ⟨rfl, rfl, rfl, ?_⟩
  norm_num [plannedDuration]

/-- C7 (amended): the single invocation-time parameter `step_time`
(default 600 seconds) controls the running time of every load variant
except `mem_increasing_rss` and `mem_mmap_8gb_touch_incrementally`:
for every other variant the programmed duration strictly increases with the
parameter, while those two variants' programmed durations are the constants
10 s and 8 s regardless of the parameter. -/
theorem duration_param_responds (v : Step) (s : ℕ)
    (hv : v ∈ cpuVariants ++ memVariants ++ ioVariants)
    (h1 : v ≠ Step.mem_increasing_rss)
    (h2 : v ≠ Step.mem_mmap_8gb_touch_incrementally) :
    spin_secs_default = 600 ∧
    plannedDuration v s < plannedDuration v (s + 10) ∧
    plannedDuration Step.mem_increasing_rss s = 10 ∧
    plannedDuration Step.mem_mmap_8gb_touch_incrementally s = 8 := by
  refine ⟨rfl, ?_, rfl, rfl⟩
  fin_cases hv
  all_goals first
    | exact absurd rfl h1
    | exact absurd rfl h2
    | (simp only [plannedDuration]
       have hdiv : (s + 10) / 10 = s / 10 + 1 := by omega
       rw [hdiv]
       push_cast
       linarith)
    | (simp only [plannedDuration]
       push_cast
       linarith)

/-- Witness for C7's amended theorem at `v = cpu_staircase`, `s = 600`. -/
theorem duration_param_responds_witness :
    Step.cpu_staircase ∈ cpuVariants ++ memVariants ++ ioVariants ∧
    Step.cpu_staircase ≠ Step.mem_increasing_rss ∧
    Step.cpu_staircase ≠ Step.mem_mmap_8gb_touch_incrementally ∧
    (spin_secs_default = 600 ∧
      plannedDuration Step.cpu_staircase 600
        < plannedDuration Step.cpu_staircase 610 ∧
      plannedDuration Step.mem_increasing_rss 600 = 10 ∧
      plannedDuration Step.mem_mmap_8gb_touch_incrementally 600 = 8) :=
  ⟨by decide, by decide, by decide,
    duration_param_responds Step.cpu_staircase 600 (by decide) (by decide)
      (by decide)⟩

/-! ## The CPU staircase -/

/-- From `MonitorBench.cpu_staircase`: `for i in range(10):
spin_cpu_percentage(int(self.spin_secs/10), i*10)` — the list of
(seconds, percentage) arguments of the ten calls, in order. -/
def cpu_staircase_calls (secs : ℕ) : List (ℕ × ℕ) :=
  (List.range 10).map fun i => (secs / 10, i * 10)

/-- C10: the CPU staircase runs exactly 10 segments, each of
`int(spin_secs/10)` seconds, at utilizations 0%, 10%, ..., 90% in that
order; 100% never occurs, despite the docstring "ending at 100%
utilization". -/
theorem cpu_staircase_ten_segments (secs : ℕ) :
    (cpu_staircase_calls secs).length = 10 ∧
    (cpu_staircase_calls secs).map Prod.snd
      = [0, 10, 20, 30, 40, 50, 60, 70, 80, 90] ∧
    (cpu_staircase_calls secs).map Prod.fst = List.replicate 10 (secs / 10) ∧
    100 ∉ (cpu_staircase_calls secs).map Prod.snd := by
  refine ⟨rfl, rfl, rfl, ?_⟩
  have h : (cpu_staircase_calls secs).map Prod.snd
      = [0, 10, 20, 30, 40, 50, 60, 70, 80, 90] := rfl
  rw [h]
  decide

end Monitorbench
